import Mathlib

/-!
Verification development for the AlgoScript trading-strategy interpreter
(backend/algoscript: lexer.py, parser.py, models.py, market_data.py,
executor.py).  Python floats are modelled as exact rationals (`ℚ`),
Python `Optional` as `Option`, Python dict-of-parameters as ordered
association lists, and the execution-log list as a message counter.
All definitions are translated directly from the source files.
-/

set_option maxRecDepth 4000
set_option linter.unusedVariables false

namespace AlgoScript

/-- A scalar parameter value as stored in an action's parameter dict:
either a string or a number (Python float, modelled as `ℚ`). -/
inductive PVal where
  | s (v : String)
  | q (v : ℚ)
deriving DecidableEq, Repr

/-- An action's parameter dictionary (insertion-ordered, keys unique). -/
abbrev Params := List (String × PVal)

/-- `models.IndicatorCall`. -/
structure IndicatorCall where
  name : String
  period : Option ℕ := none
  timeframe : Option String := none
deriving DecidableEq, Repr

/-- The operand of a condition: `models.Condition.left/right` is
`Union[str, IndicatorCall, float]`. -/
inductive CondVal where
  | str (v : String)
  | ind (i : IndicatorCall)
  | num (v : ℚ)
deriving DecidableEq, Repr

/-- `models.Condition`. -/
structure Condition where
  left : CondVal
  operator : String
  right : CondVal
  logical_op : Option String := none
deriving DecidableEq, Repr

/-- `models.Action`. -/
structure Action where
  type : String
  parameters : Params := []
deriving DecidableEq, Repr

/-- `models.EventHandler`. -/
structure EventHandler where
  event_type : String
  conditions : List Condition := []
  actions : List Action := []
deriving DecidableEq, Repr

/-- `models.AlgoScriptAST` (global_variables omitted: never consulted). -/
structure AlgoScriptAST where
  symbol : String
  timeframe : String
  event_handlers : List EventHandler := []
deriving DecidableEq, Repr

/-- One OHLCV candle, restricted to the fields the indicator engine
reads (`close`, `volume`). -/
structure Candle where
  close : ℚ
  volume : ℚ
deriving DecidableEq, Repr

/-- An executed-order audit record (`models` order dict; the timestamp,
a wall-clock value, is omitted). -/
structure Order where
  typ : String
  order_type : String
  quantity : ℚ
  price : ℚ
  status : String
deriving DecidableEq, Repr

/-- `models.TradingState`; `logs` is modelled as the number of log
messages (their text is diagnostic only), and the `variables` dict is
the `vars` field (`variables` is reserved in Lean). -/
structure TState where
  position_size : ℚ
  entry_price : Option ℚ
  stop_loss : Option ℚ
  take_profit : Option ℚ
  balance : ℚ
  vars : List (String × PVal)
  orders : List Order
  logs : ℕ
deriving DecidableEq, Repr

/-- `models.ExecutionResult`, restricted to the success flag. -/
structure ExecResult where
  success : Bool
deriving DecidableEq, Repr

/-- The market-data engine state: candle history plus the separate
`current_price` field of `MockMarketData`. -/
structure Market where
  candles : List Candle
  current_price : ℚ
deriving DecidableEq, Repr

/-- The close series of a market, `[candle.close for candle in self.candles]`. -/
def Market.closes (m : Market) : List ℚ := m.candles.map Candle.close

/-- `MockMarketData.calculate_ema` on an explicit data series:
returns `data[-1]` (or 0 on empty data) when the series is shorter
than the period, otherwise folds the EMA recurrence with smoothing
factor `2/(period+1)` seeded by the first element. -/
def calcEMA (period : ℕ) (data : List ℚ) : ℚ :=
  if data.length < period then data.getLastD 0
  else
    let m : ℚ := 2 / ((period : ℚ) + 1)
    match data with
    | [] => 0
    | d :: rest => rest.foldl (fun e price => price * m + e * (1 - m)) d

/-- Python `l[-(n):]` for `n ≥ 1`: the last `n` elements. -/
def takeLastQ (n : ℕ) (l : List ℚ) : List ℚ := l.drop (l.length - n)

/-- The close-to-close changes `closes[i] - closes[i-1]` of a series. -/
def diffs : List ℚ → List ℚ
  | a :: b :: rest => (b - a) :: diffs (b :: rest)
  | _ => []

/-- One entry of the `gains` list in `calculate_rsi`. -/
def rsiGain (c : ℚ) : ℚ := if c > 0 then c else 0

/-- One entry of the `losses` list in `calculate_rsi`. -/
def rsiLoss (c : ℚ) : ℚ := if c > 0 then 0 else |c|

/-- `avg_gain` of `calculate_rsi` over the full close series. -/
def rsiAvgGain (period : ℕ) (closes : List ℚ) : ℚ :=
  ((diffs (takeLastQ (period + 1) closes)).map rsiGain).sum / (period : ℚ)

/-- `avg_loss` of `calculate_rsi` over the full close series. -/
def rsiAvgLoss (period : ℕ) (closes : List ℚ) : ℚ :=
  ((diffs (takeLastQ (period + 1) closes)).map rsiLoss).sum / (period : ℚ)

/-- `MockMarketData.calculate_rsi` as a function of the close series. -/
def calcRSI (period : ℕ) (closes : List ℚ) : ℚ :=
  if closes.length < period + 1 then 50
  else if rsiAvgLoss period closes = 0 then 100
  else 100 - 100 / (1 + rsiAvgGain period closes / rsiAvgLoss period closes)

/-- The `{macd, signal, histogram}` result of `calculate_macd`. -/
structure MACDResult where
  macd : ℚ
  signal : ℚ
  histogram : ℚ
deriving DecidableEq, Repr

/-- `MockMarketData.calculate_macd` as a function of the close series;
`sig` (the unused `signal_period` argument) is kept for signature
fidelity. -/
def calcMACD (fast slow sig : ℕ) (closes : List ℚ) : MACDResult :=
  if closes.length < slow then ⟨0, 0, 0⟩
  else
    let fastEma := calcEMA fast closes
    let slowEma := calcEMA slow closes
    let macdLine := fastEma - slowEma
    let signalLine := macdLine * (7 / 10)
    ⟨macdLine, signalLine, macdLine - signalLine⟩

/-- The last two elements of a list, oldest first
(`previous_candle = candles[-2]`, `current_candle = candles[-1]`);
`none` when fewer than 2 elements exist. -/
def last2 (l : List ℚ) : Option (ℚ × ℚ) :=
  match l.reverse with
  | curr :: prev :: _ => some (prev, curr)
  | _ => none

/-- ASCII upper-casing of a string (Python `str.upper` on the keyword
arguments actually used). -/
def upperStr (s : String) : String := ⟨s.data.map Char.toUpper⟩

/-- `MockMarketData.check_price_cross(price, indicator_value, direction)`
as a function of the close series.  The `price` argument is accepted and
ignored, exactly as in the source. -/
def checkPriceCross (closes : List ℚ) (price level : ℚ) (direction : String) : Bool :=
  match last2 closes with
  | none => false
  | some (prev, curr) =>
    if upperStr direction = "UPWARDS" then decide (prev ≤ level) && decide (curr > level)
    else if upperStr direction = "DOWNWARDS" then decide (prev ≥ level) && decide (curr < level)
    else false

/-- `MockMarketData.get_volume`: latest candle's volume, 0 if no candles. -/
def getVolume (m : Market) : ℚ :=
  match m.candles.getLast? with
  | some c => c.volume
  | none => 0

/-! ## Executor (`executor.py`) -/

/-- Parse a decimal digit string (Python `float` on lexer-produced
numerals): digits, optionally followed by `.` and more digits. -/
def digitsToNat (cs : List Char) : ℕ :=
  cs.foldl (fun n c => n * 10 + (c.toNat - '0'.toNat)) 0

/-- Decimal string to rational; 0 when the string has no leading digits
(mirrors the `except: return 0.0` fallback of `_resolve_value`). -/
def parseDecimal (s : String) : ℚ :=
  let cs := s.data
  let intPart := cs.takeWhile Char.isDigit
  if intPart.isEmpty then 0
  else
    match cs.drop intPart.length with
    | '.' :: frac =>
      let fd := frac.takeWhile Char.isDigit
      (digitsToNat intPart : ℚ) + (digitsToNat fd : ℚ) / (10 ^ fd.length : ℚ)
    | _ => (digitsToNat intPart : ℚ)

/-- `AlgoScriptExecutor._calculate_indicator`.  Note `indicator.period
or 50` is Python truthiness: an explicit period of 0 also falls back to
the default. -/
def calcIndicator (m : Market) (i : IndicatorCall) : ℚ :=
  if i.name = "EMA" then
    let period := match i.period with | some p => if p = 0 then 50 else p | none => 50
    calcEMA period m.closes
  else if i.name = "RSI" then
    let period := match i.period with | some p => if p = 0 then 14 else p | none => 14
    calcRSI period m.closes
  else if i.name = "MACD" then (calcMACD 12 26 9 m.closes).macd
  else if i.name = "MACD_HISTOGRAM" then (calcMACD 12 26 9 m.closes).histogram
  else if i.name = "VOLUME" then getVolume m
  else 0

/-- `AlgoScriptExecutor._resolve_value`. -/
def resolveValue (m : Market) (s : TState) : CondVal → ℚ
  | .num v => v
  | .str v =>
    if v = "PRICE" then m.current_price
    else if v = "ENTRY_PRICE" then
      match s.entry_price with
      | some e => if e = 0 then 0 else e
      | none => 0
    else if v = "BALANCE" then s.balance
    else parseDecimal v
  | .ind i => calcIndicator m i

/-- `AlgoScriptExecutor._apply_operator`. -/
def applyOperator (m : Market) (left : ℚ) (op : String) (right : ℚ) : Bool :=
  if op = "CROSSES_UPWARDS" then checkPriceCross m.closes left right "UPWARDS"
  else if op = "CROSSES_DOWNWARDS" then checkPriceCross m.closes left right "DOWNWARDS"
  else if op = "IS_POSITIVE" then decide (left > 0)
  else if op = "IS_NEGATIVE" then decide (left < 0)
  else if op = "LESS_THAN" ∨ op = "IS_LESS_THAN" then decide (left < right)
  else if op = "GREATER_THAN" ∨ op = "IS_GREATER_THAN" then decide (left > right)
  else if op = "IS" then decide (|left - right| < 1 / 1000)
  else false

/-- `AlgoScriptExecutor._evaluate_condition` (the logging inside it does
not influence the boolean outcome). -/
def condEval (m : Market) (s : TState) (c : Condition) : Bool :=
  applyOperator m (resolveValue m s c.left) c.operator (resolveValue m s c.right)

/-- The quantity/dollar-cost plan of `_execute_buy_action`, before the
balance check: `none` for invalid parameters (including a non-numeric
value where the code would raise, leaving the state unchanged). -/
def buyPlan (price : ℚ) (params : Params) (s : TState) : Option (ℚ × ℚ) :=
  if (params.lookup "amount_percentage").isSome ∧
      params.lookup "amount_type" = some (PVal.s "BALANCE") then
    match params.lookup "amount_percentage" with
    | some (PVal.q pct) =>
      let dollar := s.balance * (pct / 100)
      some (dollar / price, dollar)
    | _ => none
  else
    match params.lookup "amount" with
    | some (PVal.q amt) => some (amt, amt * price)
    | _ => none

/-- The `order_type` parameter with its `'MARKET_ORDER'` default. -/
def orderTypeOf (params : Params) : String :=
  match params.lookup "order_type" with
  | some (PVal.s ot) => ot
  | some (PVal.q _) => ""
  | none => "MARKET_ORDER"

/-- `AlgoScriptExecutor._execute_buy_action`.  A limit order fills at
the same reference price as a market order (source lines 220-227). -/
def execBuy (price : ℚ) (params : Params) (s : TState) : TState :=
  match buyPlan price params s with
  | none => { s with logs := s.logs + 1 }
  | some (quantity, dollar) =>
    if dollar > s.balance then { s with logs := s.logs + 1 }
    else
      { s with
        position_size := s.position_size + quantity
        entry_price := some price
        balance := s.balance - dollar
        orders := s.orders ++ [⟨"BUY", orderTypeOf params, quantity, price, "FILLED"⟩]
        logs := s.logs + 4 }

/-- The quantity resolution of `_execute_sell_action` (for an open
position): percentage of position, literal amount capped at the
position, or the whole position; `none` where the code would raise. -/
def sellQuantity (params : Params) (s : TState) : Option ℚ :=
  if (params.lookup "amount_percentage").isSome ∧
      params.lookup "amount_type" = some (PVal.s "POSITION") then
    match params.lookup "amount_percentage" with
    | some (PVal.q pct) => some (s.position_size * (pct / 100))
    | _ => none
  else
    match params.lookup "amount" with
    | some (PVal.q amt) => some (min amt s.position_size)
    | some (PVal.s _) => none
    | none => some s.position_size

/-- `AlgoScriptExecutor._execute_sell_action`. -/
def execSell (price : ℚ) (params : Params) (s : TState) : TState :=
  if s.position_size ≤ 0 then { s with logs := s.logs + 1 }
  else
    match sellQuantity params s with
    | none => { s with logs := s.logs + 1 }
    | some quantity =>
      let pos := s.position_size - quantity
      { s with
        position_size := pos
        balance := s.balance + quantity * price
        entry_price := if pos ≤ 0 then none else s.entry_price
        stop_loss := if pos ≤ 0 then none else s.stop_loss
        take_profit := if pos ≤ 0 then none else s.take_profit
        orders := s.orders ++ [⟨"SELL", orderTypeOf params, quantity, price, "FILLED"⟩]
        logs := s.logs + 5 }

/-- `params.get('percentage', 0)`: missing key defaults to 0, a string
value makes the later arithmetic raise (`none`: state unchanged). -/
def getPctD (params : Params) (k : String) : Option ℚ :=
  match params.lookup k with
  | none => some 0
  | some (PVal.q v) => some v
  | some (PVal.s _) => none

/-- `params.get(k, d)` coerced for string comparison: a numeric value
compares unequal to every keyword string. -/
def getStrD (params : Params) (k d : String) : String :=
  match params.lookup k with
  | none => d
  | some (PVal.s v) => v
  | some (PVal.q _) => ""

/-- Python truthiness of `trading_state.entry_price`: set and nonzero. -/
def entryTruthy (s : TState) : Bool :=
  match s.entry_price with
  | some e => decide (e ≠ 0)
  | none => false

/-- The stop-loss level computed by the `STOP_LOSS` branch of
`_execute_set_action`: `entry_price × (1 ∓ percentage/100)` with the
sign from `direction` (default `BELOW`); `none` when the branch makes
no assignment (base not `ENTRY_PRICE`, entry price unset or zero, or a
non-numeric percentage, where the code would raise). -/
def setStopLossVal (params : Params) (s : TState) : Option ℚ :=
  match getPctD params "percentage" with
  | none => none
  | some pct =>
    let direction := getStrD params "direction" "BELOW"
    let base := getStrD params "base" "ENTRY_PRICE"
    if base = "ENTRY_PRICE" ∧ entryTruthy s = true then
      match s.entry_price with
      | some e =>
        some (if direction = "BELOW" then e * (1 - pct / 100) else e * (1 + pct / 100))
      | none => none
    else none

/-- The take-profit level computed by the `TAKE_PROFIT` branch of
`_execute_set_action` (direction default `ABOVE`). -/
def setTakeProfitVal (params : Params) (s : TState) : Option ℚ :=
  match getPctD params "percentage" with
  | none => none
  | some pct =>
    let direction := getStrD params "direction" "ABOVE"
    let base := getStrD params "base" "ENTRY_PRICE"
    if base = "ENTRY_PRICE" ∧ entryTruthy s = true then
      match s.entry_price with
      | some e =>
        some (if direction = "ABOVE" then e * (1 + pct / 100) else e * (1 - pct / 100))
      | none => none
    else none

/-- `AlgoScriptExecutor._execute_set_action`. -/
def execSet (params : Params) (s : TState) : TState :=
  match params.lookup "target" with
  | some (PVal.s "STOP_LOSS") =>
    (match setStopLossVal params s with
     | some sl => { s with stop_loss := some sl, logs := s.logs + 1 }
     | none => s)
  | some (PVal.s "TAKE_PROFIT") =>
    (match setTakeProfitVal params s with
     | some tp => { s with take_profit := some tp, logs := s.logs + 1 }
     | none => s)
  | _ => s

/-- `AlgoScriptExecutor._execute_log_action`. -/
def execLog (s : TState) : TState := { s with logs := s.logs + 1 }

/-- `AlgoScriptExecutor._execute_action`: dispatch on the action type
string (unknown types only log). -/
def execActionS (m : Market) (s : TState) (a : Action) : TState :=
  let s0 := { s with logs := s.logs + 1 }
  if a.type = "BUY" then execBuy m.current_price a.parameters s0
  else if a.type = "SELL" then execSell m.current_price a.parameters s0
  else if a.type = "SET" then execSet a.parameters s0
  else if a.type = "LOG" then execLog s0
  else s0

/-- `AlgoScriptExecutor._execute_event_handler`: a handler with a
nonempty condition list whose conditions do not all hold skips its
actions; otherwise all actions run in declared order.  The second
component records the actions that were executed. -/
def execHandler (m : Market) (h : EventHandler) (s : TState) : TState × List Action :=
  let s0 := { s with logs := s.logs + 1 }
  if !h.conditions.isEmpty && !(h.conditions.all fun c => condEval m s0 c) then
    ({ s0 with logs := s0.logs + 1 }, [])
  else
    (h.actions.foldl (execActionS m) s0, h.actions)

/-- `AlgoScriptExecutor.execute`: header logging, handler filtering by
event type, sequential handler execution; always succeeds on this
(exception-free) path. -/
def executeEvent (m : Market) (ast : AlgoScriptAST) (event : String) (s : TState) :
    ExecResult × TState :=
  let s0 := { s with logs := s.logs + 5 + (if 0 < s.position_size then 1 else 0) }
  match ast.event_handlers.filter (fun h => h.event_type == event) with
  | [] => (⟨true⟩, { s0 with logs := s0.logs + 1 })
  | hs =>
    let s1 := hs.foldl (fun st h => (execHandler m h st).1) s0
    (⟨true⟩, { s1 with logs := s1.logs + 1 })

/-- Python truthiness test `stop_loss and current_price <= stop_loss`. -/
def slHit (price : ℚ) (s : TState) : Bool :=
  match s.stop_loss with
  | some sl => decide (sl ≠ 0 ∧ price ≤ sl)
  | none => false

/-- Python truthiness test `take_profit and current_price >= take_profit`. -/
def tpHit (price : ℚ) (s : TState) : Bool :=
  match s.take_profit with
  | some tp => decide (tp ≠ 0 ∧ price ≥ tp)
  | none => false

/-- The forced full-position sell parameters used by
`check_stop_loss_take_profit`. -/
def fullSellParams : Params :=
  [("amount_percentage", PVal.q 100), ("amount_type", PVal.s "POSITION"),
   ("order_type", PVal.s "MARKET_ORDER")]

/-- `AlgoScriptExecutor.check_stop_loss_take_profit`. -/
def checkSLTP (price : ℚ) (s : TState) : TState × List String :=
  if 0 < s.position_size then
    if slHit price s then
      (execSell price fullSellParams { s with logs := s.logs + 1 }, ["STOP_LOSS"])
    else if tpHit price s then
      (execSell price fullSellParams { s with logs := s.logs + 1 }, ["TAKE_PROFIT"])
    else (s, [])
  else (s, [])

/-- A fresh `TradingState` with the given initial balance. -/
def initState (b : ℚ) : TState := ⟨0, none, none, none, b, [], [], 0⟩

/-- One executor-driven mutation of the trading state: an executed
action (at some positive market price) or a protective-level check. -/
inductive Step : TState → TState → Prop where
  | buy (price : ℚ) (params : Params) (s : TState) (hp : 0 < price) :
      Step s (execBuy price params s)
  | sell (price : ℚ) (params : Params) (s : TState) (hp : 0 < price) :
      Step s (execSell price params s)
  | set (params : Params) (s : TState) : Step s (execSet params s)
  | logMsg (s : TState) : Step s (execLog s)
  | check (price : ℚ) (s : TState) (hp : 0 < price) :
      Step s (checkSLTP price s).1

/-- States reachable from a fresh `TradingState` with balance `b`. -/
def Reachable (b : ℚ) (s : TState) : Prop :=
  Relation.ReflTransGen Step (initState b) s

/-! ## Lexer (`lexer.py`) -/

/-- `models.TokenType`. -/
inductive TokenType where
  | SYMBOL | TIMEFRAME | NUMBER | STRING | PERCENTAGE
  | ON | IF | AND | OR | NOT | END | SET | LOG
  | NEW_CANDLE | ORDER_FILLED | PRICE_CHANGE
  | PRICE | EMA | RSI | MACD | MACD_HISTOGRAM | VOLUME
  | BUY | SELL | MARKET_ORDER | LIMIT_ORDER
  | STOP_LOSS | TAKE_PROFIT | ENTRY_PRICE | BALANCE | POSITION
  | CROSSES | UPWARDS | DOWNWARDS | IS | POSITIVE | NEGATIVE
  | LESS_THAN | GREATER_THAN | AT | OF | WITH | ABOVE | BELOW
  | DAILY | H4 | H1 | M15 | M5
  | COLON | COMMA | LPAREN | RPAREN | NEWLINE
  | EOF | UNKNOWN
deriving DecidableEq, Repr

/-- `models.Token`. -/
structure Token where
  type : TokenType
  value : String
  line : ℕ
  column : ℕ
deriving DecidableEq, Repr

/-- A regex word character (`\w`): letters, digits, underscore. -/
def isWordChar (c : Char) : Bool := c.isAlphanum || c = '_'

/-- Character of a line at an index, a (non-word) space out of range. -/
def charAt (l : List Char) (i : ℕ) : Char := l.getD i ' '

/-- Regex `\b` holds before position `pos`. -/
def boundaryBefore (line : List Char) (pos : ℕ) : Bool :=
  pos == 0 || !isWordChar (charAt line (pos - 1))

/-- Regex `\b` holds at position `pos` after a word character. -/
def boundaryAfter (line : List Char) (pos : ℕ) : Bool :=
  !isWordChar (charAt line pos)

/-- Anchored match of the keyword pattern `\bkw\b` at `pos`. -/
def matchKw (line : List Char) (pos : ℕ) (kw : List Char) : Option ℕ :=
  if boundaryBefore line pos && kw.isPrefixOf (line.drop pos) &&
      boundaryAfter line (pos + kw.length) then some kw.length
  else none

/-- Anchored match of a two-word pattern `\ba\s+b\b` (for
`LESS THAN` / `GREATER THAN`). -/
def matchKw2 (line : List Char) (pos : ℕ) (a b : List Char) : Option ℕ :=
  if boundaryBefore line pos && a.isPrefixOf (line.drop pos) then
    let ws := ((line.drop (pos + a.length)).takeWhile Char.isWhitespace).length
    if ws > 0 && b.isPrefixOf (line.drop (pos + a.length + ws)) &&
        boundaryAfter line (pos + a.length + ws + b.length) then
      some (a.length + ws + b.length)
    else none
  else none

/-- Length matched by the numeric core `\d+\.?\d*` at `pos` (0: no match). -/
def numCoreLen (line : List Char) (pos : ℕ) : ℕ :=
  let rest := line.drop pos
  let d1 := (rest.takeWhile Char.isDigit).length
  if d1 == 0 then 0
  else
    match rest.drop d1 with
    | '.' :: tail => d1 + 1 + (tail.takeWhile Char.isDigit).length
    | _ => d1

/-- Anchored match of the string-literal pattern; yields matched length
and the content without the quotes. -/
def matchStringLit (line : List Char) (pos : ℕ) : Option (ℕ × List Char) :=
  match line.drop pos with
  | '"' :: rest =>
    match rest.findIdx? (fun c => c == '"') with
    | some j => some (j + 2, rest.take j)
    | none => none
  | _ => none

/-- One entry of the ordered keyword pattern table. -/
inductive LexPat where
  | kw (text : String) (t : TokenType)
  | kw2 (a b : String) (t : TokenType)

/-- The keyword/operator/timeframe patterns of `AlgoScriptLexer.__init__`,
in source order (the order matters: e.g. `MACD_HISTOGRAM` before `MACD`). -/
def keywordPats : List LexPat :=
  [.kw "SYMBOL" .SYMBOL, .kw "TIMEFRAME" .TIMEFRAME, .kw "ON" .ON, .kw "IF" .IF,
   .kw "AND" .AND, .kw "OR" .OR, .kw "NOT" .NOT, .kw "END" .END, .kw "SET" .SET,
   .kw "LOG" .LOG,
   .kw "NEW_CANDLE" .NEW_CANDLE, .kw "ORDER_FILLED" .ORDER_FILLED,
   .kw "PRICE_CHANGE" .PRICE_CHANGE,
   .kw "PRICE" .PRICE, .kw "EMA" .EMA, .kw "RSI" .RSI,
   .kw "MACD_HISTOGRAM" .MACD_HISTOGRAM, .kw "MACD" .MACD, .kw "VOLUME" .VOLUME,
   .kw "BUY" .BUY, .kw "SELL" .SELL, .kw "MARKET_ORDER" .MARKET_ORDER,
   .kw "LIMIT_ORDER" .LIMIT_ORDER,
   .kw "STOP_LOSS" .STOP_LOSS, .kw "TAKE_PROFIT" .TAKE_PROFIT,
   .kw "ENTRY_PRICE" .ENTRY_PRICE, .kw "BALANCE" .BALANCE, .kw "POSITION" .POSITION,
   .kw "CROSSES" .CROSSES, .kw "UPWARDS" .UPWARDS, .kw "DOWNWARDS" .DOWNWARDS,
   .kw "IS" .IS, .kw "POSITIVE" .POSITIVE, .kw "NEGATIVE" .NEGATIVE,
   .kw2 "LESS" "THAN" .LESS_THAN, .kw2 "GREATER" "THAN" .GREATER_THAN,
   .kw "AT" .AT, .kw "OF" .OF, .kw "WITH" .WITH, .kw "ABOVE" .ABOVE, .kw "BELOW" .BELOW,
   .kw "DAILY" .DAILY, .kw "4H" .H4, .kw "1H" .H1, .kw "15M" .M15, .kw "5M" .M5]

/-- Try the keyword patterns in order at `pos`. -/
def tryKwPats : List LexPat → List Char → ℕ → Option (ℕ × TokenType)
  | [], _, _ => none
  | .kw t tt :: rest, line, pos =>
    match matchKw line pos t.data with
    | some len => some (len, tt)
    | none => tryKwPats rest line pos
  | .kw2 a b tt :: rest, line, pos =>
    match matchKw2 line pos a.data b.data with
    | some len => some (len, tt)
    | none => tryKwPats rest line pos

/-- Outcome of matching the ordered pattern table at one position:
a token of the given matched length, or a skipped span
(whitespace/comment). -/
inductive LexOut where
  | tok (len : ℕ) (t : TokenType) (value : String)
  | skip (len : ℕ)

/-- Matching of the full ordered pattern table of `tokenize` at one
position of a line: string literal, percentage, number, keywords,
punctuation, whitespace, comment, else a one-character UNKNOWN token. -/
def lexOne (line : List Char) (pos : ℕ) : LexOut :=
  match matchStringLit line pos with
  | some (len, content) => .tok len .STRING ⟨content⟩
  | none =>
    let nlen := numCoreLen line pos
    if nlen > 0 && charAt line (pos + nlen) == '%' then
      .tok (nlen + 1) .PERCENTAGE ⟨(line.drop pos).take (nlen + 1)⟩
    else if nlen > 0 then
      .tok nlen .NUMBER ⟨(line.drop pos).take nlen⟩
    else
      match tryKwPats keywordPats line pos with
      | some (len, tt) => .tok len tt ⟨(line.drop pos).take len⟩
      | none =>
        let c := charAt line pos
        if c == ':' then .tok 1 .COLON ":"
        else if c == ',' then .tok 1 .COMMA ","
        else if c == '(' then .tok 1 .LPAREN "("
        else if c == ')' then .tok 1 .RPAREN ")"
        else if c == ' ' || c == '\t' then
          .skip ((line.drop pos).takeWhile (fun ch => ch == ' ' || ch == '\t')).length
        else if c == '#' then .skip (line.length - pos)
        else .tok 1 .UNKNOWN ⟨[c]⟩

/-- The per-line scanning loop of `tokenize` (fuel-bounded; every match
consumes at least one character, so `line.length + 1` fuel suffices). -/
def lexLineLoop : ℕ → List Char → ℕ → ℕ → ℕ → List Token
  | 0, _, _, _, _ => []
  | fuel + 1, line, pos, col, ln =>
    if pos < line.length then
      match lexOne line pos with
      | .skip len => lexLineLoop fuel line (pos + len) (col + len) ln
      | .tok len tt v => ⟨tt, v, ln, col⟩ :: lexLineLoop fuel line (pos + len) (col + len) ln
    else []

/-- Tokenize one line (columns start at 1). -/
def lexLine (line : List Char) (ln : ℕ) : List Token :=
  lexLineLoop (line.length + 1) line 0 1 ln

/-- Python `str.split` on a newline character. -/
def splitLines (cs : List Char) : List (List Char) :=
  match cs with
  | [] => [[]]
  | c :: rest =>
    let r := splitLines rest
    if c = '\n' then [] :: r
    else
      match r with
      | h :: t => (c :: h) :: t
      | [] => [[c]]

/-- `AlgoScriptLexer.tokenize`: line-by-line scanning, a NEWLINE token
after every line except a trailing blank one, and a final EOF token. -/
def tokenize (code : String) : List Token :=
  let lines := splitLines code.data
  let n := lines.length
  ((lines.enum.map fun (i, line) =>
      lexLine line (i + 1) ++
        (if i + 1 < n || line.any (fun c => !c.isWhitespace) then
          [⟨.NEWLINE, "\n", i + 1, line.length + 1⟩]
        else [])).flatten) ++ [⟨.EOF, "", n, 1⟩]

/-! ## Parser (`parser.py`) -/

/-- Parser state: the token array and the `current` cursor. -/
structure PS where
  tokens : Array Token
  cur : ℕ

/-- The synthetic EOF token returned by `_peek`/`_previous` out of range. -/
def eofToken : Token := ⟨.EOF, "", 0, 0⟩

/-- `AlgoScriptParser._peek`. -/
def psPeek (p : PS) : Token := p.tokens.getD p.cur eofToken

/-- `AlgoScriptParser._is_at_end`. -/
def psIsAtEnd (p : PS) : Bool := p.cur ≥ p.tokens.size || (psPeek p).type == .EOF

/-- `AlgoScriptParser._previous`. -/
def psPrev (p : PS) : Token :=
  if p.cur > 0 then p.tokens.getD (p.cur - 1) eofToken else eofToken

/-- `AlgoScriptParser._advance`: consume the current token, return it. -/
def psAdvance (p : PS) : Token × PS :=
  let q := if psIsAtEnd p then p else { p with cur := p.cur + 1 }
  (psPrev q, q)

/-- `AlgoScriptParser._check`. -/
def psCheck (t : TokenType) (p : PS) : Bool := !psIsAtEnd p && (psPeek p).type == t

/-- `AlgoScriptParser._match` on a single token type. -/
def psMatch (t : TokenType) (p : PS) : Bool × PS :=
  if psCheck t p then (true, (psAdvance p).2) else (false, p)

/-- `AlgoScriptParser._skip_newlines` (fuel-bounded loop). -/
def skipNLAux : ℕ → PS → PS
  | 0, p => p
  | fuel + 1, p => if psCheck .NEWLINE p then skipNLAux fuel (psAdvance p).2 else p

/-- `_skip_newlines` with adequate fuel. -/
def skipNL (p : PS) : PS := skipNLAux (p.tokens.size + 1) p

/-- `AlgoScriptParser._parse_symbol`. -/
def parseSymbolDecl (p : PS) : Except String (String × PS) :=
  let (m, p) := psMatch .SYMBOL p
  if !m then .error "Expected SYMBOL declaration"
  else if !((psPeek p).type == .STRING) then .error "Expected symbol name as string"
  else
    let (t, p) := psAdvance p
    .ok (t.value, p)

/-- `AlgoScriptParser._parse_timeframe`. -/
def parseTimeframeDecl (p : PS) : Except String (String × PS) :=
  let (m, p) := psMatch .TIMEFRAME p
  if !m then .error "Expected TIMEFRAME declaration"
  else
    let (t, p) := psAdvance p
    if t.type == .H4 || t.type == .H1 || t.type == .M15 || t.type == .M5 ||
        t.type == .DAILY then .ok (t.value, p)
    else if t.type == .STRING then .ok (t.value, p)
    else .error "Expected valid timeframe"

/-- Python `int(float(v))` on a (nonnegative) lexer numeral. -/
def ratFloorNat (q : ℚ) : ℕ := q.floor.toNat

/-- Python `v.rstrip(chr(37))`: drop trailing percent signs. -/
def stripPctStr (s : String) : String :=
  ⟨(s.data.reverse.dropWhile (fun c => c == '%')).reverse⟩

/-- `AlgoScriptParser._parse_indicator`. -/
def parseIndicatorCall (p : PS) : Except String (IndicatorCall × PS) :=
  let (it, p) := psAdvance p
  let name := it.value
  let (m, p) := psMatch .LPAREN p
  if !m then .ok (⟨name, none, none⟩, p)
  else
    let (pt, p) := psAdvance p
    if pt.type == .NUMBER then
      let (m2, p) := psMatch .RPAREN p
      if !m2 then .error "Expected rparen after indicator parameter"
      else .ok (⟨name, some (ratFloorNat (parseDecimal pt.value)), none⟩, p)
    else if pt.type == .DAILY || pt.type == .H4 || pt.type == .H1 ||
        pt.type == .M15 || pt.type == .M5 then
      let (m2, p) := psMatch .RPAREN p
      if !m2 then .error "Expected rparen after indicator parameter"
      else .ok (⟨name, none, some pt.value⟩, p)
    else .error "Expected valid indicator parameter"

/-- `AlgoScriptParser._parse_expression`. -/
def parseExpressionV (p : PS) : Except String (CondVal × PS) :=
  let tok := psPeek p
  if tok.type == .PRICE then .ok (.str "PRICE", (psAdvance p).2)
  else if tok.type == .EMA || tok.type == .RSI || tok.type == .MACD ||
      tok.type == .MACD_HISTOGRAM then
    match parseIndicatorCall p with
    | .error e => .error e
    | .ok (i, p) => .ok (.ind i, p)
  else if tok.type == .NUMBER then .ok (.num (parseDecimal tok.value), (psAdvance p).2)
  else if tok.type == .PERCENTAGE then
    .ok (.num (parseDecimal (stripPctStr tok.value) / 100), (psAdvance p).2)
  else if tok.type == .ENTRY_PRICE then .ok (.str "ENTRY_PRICE", (psAdvance p).2)
  else
    let (t, p) := psAdvance p
    .ok (.str t.value, p)

/-- `AlgoScriptParser._get_operator_string`: `CROSSES`/`IS` fold the next
token into the operator string. -/
def getOpString (opTok : Token) (p : PS) : String × PS :=
  if opTok.type == .CROSSES then
    let (d, p) := psAdvance p
    ("CROSSES_" ++ d.value, p)
  else if opTok.type == .IS then
    let (c, p) := psAdvance p
    ("IS_" ++ c.value, p)
  else (opTok.value, p)

/-- `AlgoScriptParser._parse_condition`. -/
def parseConditionStmt (p : PS) : Except String (Condition × PS) :=
  let (m, p) := psMatch .IF p
  if !m then .error "Expected IF keyword"
  else
    match parseExpressionV p with
    | .error e => .error e
    | .ok (left, p) =>
      let (opTok, p) := psAdvance p
      let (op, p) := getOpString opTok p
      match parseExpressionV p with
      | .error e => .error e
      | .ok (right, p) =>
        if (psPeek p).type == .AND || (psPeek p).type == .OR then
          let (lt, p) := psAdvance p
          .ok (⟨left, op, right, some lt.value⟩, p)
        else .ok (⟨left, op, right, none⟩, p)

/-- `AlgoScriptParser._parse_buy_action`. -/
def parseBuyParams (p : PS) : Params × PS :=
  let (params, p) :=
    if (psPeek p).type == .PERCENTAGE then
      let (t, p) := psAdvance p
      let params := [("amount_percentage", PVal.q (parseDecimal (stripPctStr t.value)))]
      let (m, p) := psMatch .OF p
      if m then
        let (m2, p) := psMatch .BALANCE p
        if m2 then (params ++ [("amount_type", PVal.s "BALANCE")], p) else (params, p)
      else (params, p)
    else if (psPeek p).type == .NUMBER then
      let (t, p) := psAdvance p
      ([("amount", PVal.q (parseDecimal t.value))], p)
    else ([], p)
  let (m, p) := psMatch .WITH p
  if m then
    let (ot, p) := psAdvance p
    if ot.type == .MARKET_ORDER || ot.type == .LIMIT_ORDER then
      let params := params ++ [("order_type", PVal.s ot.value)]
      if ot.type == .LIMIT_ORDER then
        let (m2, p) := psMatch .AT p
        if m2 then
          let (m3, p) := psMatch .PRICE p
          if m3 then
            (params ++ [("limit_base", PVal.s "PRICE"), ("limit_adjustment", PVal.q 0)], p)
          else (params, p)
        else (params, p)
      else (params, p)
    else (params, p)
  else (params, p)

/-- `AlgoScriptParser._parse_sell_action`. -/
def parseSellParams (p : PS) : Params × PS :=
  let (params, p) :=
    if (psPeek p).type == .PERCENTAGE then
      let (t, p) := psAdvance p
      let params := [("amount_percentage", PVal.q (parseDecimal (stripPctStr t.value)))]
      let (m, p) := psMatch .OF p
      if m then
        let (m2, p) := psMatch .POSITION p
        if m2 then (params ++ [("amount_type", PVal.s "POSITION")], p) else (params, p)
      else (params, p)
    else ([], p)
  let (m, p) := psMatch .WITH p
  if m then
    let (ot, p) := psAdvance p
    if ot.type == .MARKET_ORDER || ot.type == .LIMIT_ORDER then
      (params ++ [("order_type", PVal.s ot.value)], p)
    else (params, p)
  else (params, p)

/-- `AlgoScriptParser._parse_set_action`. -/
def parseSetParams (p : PS) : Params × PS :=
  let (t, p) := psAdvance p
  let params := [("target", PVal.s t.value)]
  let (m, p) := psMatch .AT p
  if m then
    if (psPeek p).type == .PERCENTAGE then
      let (pt, p) := psAdvance p
      let params := params ++ [("percentage", PVal.q (parseDecimal (stripPctStr pt.value)))]
      let (dt, p) := psAdvance p
      if dt.type == .ABOVE || dt.type == .BELOW then
        let params := params ++ [("direction", PVal.s dt.value)]
        let (bt, p) := psAdvance p
        (params ++ [("base", PVal.s bt.value)], p)
      else (params, p)
    else (params, p)
  else (params, p)

/-- `AlgoScriptParser._parse_log_action`. -/
def parseLogParams (p : PS) : Params × PS :=
  if (psPeek p).type == .STRING then
    let (t, p) := psAdvance p
    ([("message", PVal.s t.value)], p)
  else ([], p)

/-- `AlgoScriptParser._parse_action`: dispatch on the action token's
string value. -/
def parseActionStmt (p : PS) : Action × PS :=
  let (t, p) := psAdvance p
  if t.value == "BUY" then
    let (ps2, p) := parseBuyParams p
    (⟨"BUY", ps2⟩, p)
  else if t.value == "SELL" then
    let (ps2, p) := parseSellParams p
    (⟨"SELL", ps2⟩, p)
  else if t.value == "SET" then
    let (ps2, p) := parseSetParams p
    (⟨"SET", ps2⟩, p)
  else if t.value == "LOG" then
    let (ps2, p) := parseLogParams p
    (⟨"LOG", ps2⟩, p)
  else (⟨t.value, []⟩, p)

/-- The condition/action collection loop of `_parse_event_handler`
(fuel-bounded; each iteration consumes at least one token). -/
def handlerBodyLoop :
    ℕ → PS → List Condition → List Action →
    Except String ((List Condition × List Action) × PS)
  | 0, p, conds, acts => .ok ((conds, acts), p)
  | fuel + 1, p, conds, acts =>
    if psIsAtEnd p || (psPeek p).type == .ON || (psPeek p).type == .END then
      .ok ((conds, acts), p)
    else if (psPeek p).type == .IF then
      match parseConditionStmt p with
      | .error e => .error e
      | .ok (c, p) => handlerBodyLoop fuel (skipNL p) (conds ++ [c]) acts
    else if (psPeek p).type == .BUY || (psPeek p).type == .SELL ||
        (psPeek p).type == .SET || (psPeek p).type == .LOG then
      let (a, p) := parseActionStmt p
      handlerBodyLoop fuel (skipNL p) conds (acts ++ [a])
    else
      handlerBodyLoop fuel (skipNL (psAdvance p).2) conds acts

/-- `AlgoScriptParser._parse_event_handler`. -/
def parseEventHandler (p : PS) : Except String (EventHandler × PS) :=
  let (m, p) := psMatch .ON p
  if !m then .error "Expected ON keyword"
  else
    let (et, p) := psAdvance p
    if !(et.type == .NEW_CANDLE || et.type == .ORDER_FILLED ||
        et.type == .PRICE_CHANGE) then
      .error "Expected valid event type"
    else
      let (m2, p) := psMatch .COLON p
      if !m2 then .error "Expected colon after event type"
      else
        let p := skipNL p
        match handlerBodyLoop (p.tokens.size + 1) p [] [] with
        | .error e => .error e
        | .ok ((conds, acts), p) => .ok (⟨et.value, conds, acts⟩, p)

/-- The top-level handler collection loop of `parse` (fuel-bounded). -/
def topLoop : ℕ → PS → List EventHandler → Except String (List EventHandler × PS)
  | 0, p, hs => .ok (hs, p)
  | fuel + 1, p, hs =>
    if psIsAtEnd p || (psPeek p).type == .END then .ok (hs, p)
    else if (psPeek p).type == .ON then
      match parseEventHandler p with
      | .error e => .error e
      | .ok (h, p) => topLoop fuel (skipNL p) (hs ++ [h])
    else topLoop fuel (skipNL (psAdvance p).2) hs

/-- `AlgoScriptParser.parse`. -/
def parseProgram (tokens : List Token) : Except String AlgoScriptAST :=
  let p : PS := ⟨tokens.toArray, 0⟩
  let p := skipNL p
  match parseSymbolDecl p with
  | .error e => .error e
  | .ok (sym, p) =>
    let p := skipNL p
    match parseTimeframeDecl p with
    | .error e => .error e
    | .ok (tf, p) =>
      let p := skipNL p
      match topLoop (p.tokens.size + 1) p [] with
      | .error e => .error e
      | .ok (hs, _) => .ok ⟨sym, tf, hs⟩

deriving instance DecidableEq for Except

/-! ## Concrete inputs used by the claim theorems -/

/-- A strategy program containing the C9 action line. -/
def progC9 : String :=
  "SYMBOL \"ETHUSD\"\nTIMEFRAME \"4H\"\nON NEW_CANDLE:\nSET STOP_LOSS AT 5% BELOW ENTRY_PRICE\nEND"

/-- The action the spec requires for `SET STOP_LOSS AT 5% BELOW ENTRY_PRICE`. -/
def actionC9 : Action :=
  ⟨"SET", [("target", PVal.s "STOP_LOSS"), ("percentage", PVal.q 5),
           ("direction", PVal.s "BELOW"), ("base", PVal.s "ENTRY_PRICE")]⟩

/-- A zero-quantity BUY from a fresh state: succeeds (cost 0), sets
`entry_price`, leaves `position_size` at 0. -/
def c1bad : TState := execBuy 100 [("amount", PVal.q 0)] (initState 10000)

/-- A reachable state whose `take_profit` is exactly 0
(`BUY 1` at price 100, then `SET TAKE_PROFIT AT 100% BELOW ENTRY_PRICE`). -/
def c4reach : TState :=
  execSet [("target", PVal.s "TAKE_PROFIT"), ("percentage", PVal.q 100),
           ("direction", PVal.s "BELOW"), ("base", PVal.s "ENTRY_PRICE")]
    (execBuy 100 [("amount", PVal.q 1)] (initState 10000))

/-- A state with an open position and an armed stop-loss. -/
def c4wstate : TState := ⟨1, some 100, some 90, none, 0, [], [], 0⟩

/-- A state with an open position and no protective levels armed. -/
def c1wstate : TState := ⟨1, some 100, none, none, 0, [], [], 0⟩

/-- A strategy AST with a single NEW_CANDLE handler. -/
def astC10 : AlgoScriptAST := ⟨"ETHUSD", "4H", [⟨"NEW_CANDLE", [], []⟩]⟩

example : calcEMA 2 [1, 1, 1] = 1 := by norm_num [calcEMA]
example : checkPriceCross [90, 110] 0 100 "UPWARDS" = true := by decide
example : calcRSI 2 [1, 2, 3] = 100 := by
  norm_num [calcRSI, rsiAvgLoss, takeLastQ, diffs, rsiLoss]
example : calcRSI 2 [3, 2, 1] = 0 := by
  norm_num [calcRSI, rsiAvgLoss, rsiAvgGain, takeLastQ, diffs, rsiLoss, rsiGain]

/-! ## Claim C9 -/

/-- C9: lexing then parsing a program containing the action line
`SET STOP_LOSS AT 5% BELOW ENTRY_PRICE` produces for that line exactly
the action `SET` with parameters `target = STOP_LOSS`, `percentage = 5`,
`direction = BELOW`, `base = ENTRY_PRICE` (and nothing else). -/
theorem claim_C9 :
    parseProgram (tokenize progC9) =
      .ok ⟨"ETHUSD", "4H", [⟨"NEW_CANDLE", [], [actionC9]⟩]⟩ ∧
    (parseProgram (tokenize progC9)).map
      (fun a => a.event_handlers.map EventHandler.actions) = .ok [[actionC9]] := by
  constructor
  · decide
  · decide

/-! ## Market-data claims (C2, C5, C6, C7) -/

/-- The EMA recurrence keeps a constant series constant. -/
theorem emaConstFold (m v : ℚ) : ∀ k : ℕ,
    (List.replicate k v).foldl (fun e price => price * m + e * (1 - m)) v = v := by
  intro k
  induction k with
  | zero => rfl
  | succ k ih =>
    rw [List.replicate_succ]
    simp only [List.foldl_cons]
    rw [show v * m + v * (1 - m) = v by ring]
    exact ih

/-- C5: `ema(period)` folds the EMA recurrence with smoothing
`2/(period+1)` seeded by the first close; it returns the most recent
close when fewer than `period` closes exist, and in particular maps a
constant series of value `v` of length at least `period ≥ 1` to `v`
(exactly, floats being modelled as rationals). -/
theorem claim_C5 :
    (∀ (period : ℕ) (v : ℚ) (n : ℕ), 1 ≤ period → period ≤ n →
      calcEMA period (List.replicate n v) = v) ∧
    (∀ (period : ℕ) (data : List ℚ), data ≠ [] → data.length < period →
      calcEMA period data = data.getLastD 0) := by
  constructor
  · intro period v n h1 h2
    unfold calcEMA
    rw [if_neg (by simp only [List.length_replicate]; omega)]
    obtain ⟨k, rfl⟩ : ∃ k, n = k + 1 := ⟨n - 1, by omega⟩
    rw [List.replicate_succ]
    exact emaConstFold _ v k
  · intro period data h1 h2
    unfold calcEMA
    rw [if_pos h2]

/-- C5 witness: a constant series of length 3 with period 2, and a
too-short series. -/
theorem claim_C5_witness :
    calcEMA 2 (List.replicate 3 (5 : ℚ)) = 5 ∧ calcEMA 4 [7, 9] = 9 := by
  constructor
  · exact claim_C5.1 2 5 3 (by norm_num) (by norm_num)
  · exact (claim_C5.2 4 [7, 9] (by decide) (by decide)).trans (by decide)

/-- C2: `calculate_macd(12, 26, 9)` returns
`macd = EMA(12) − EMA(26)` over all closes, `signal = 0.7 · macd`,
`histogram = macd − signal = 0.3 · macd`, and all zeros when fewer
than 26 closes exist. -/
theorem claim_C2 : ∀ closes : List ℚ,
    (26 ≤ closes.length →
      (calcMACD 12 26 9 closes).macd = calcEMA 12 closes - calcEMA 26 closes ∧
      (calcMACD 12 26 9 closes).signal = (7 / 10) * (calcMACD 12 26 9 closes).macd ∧
      (calcMACD 12 26 9 closes).histogram =
        (calcMACD 12 26 9 closes).macd - (calcMACD 12 26 9 closes).signal ∧
      (calcMACD 12 26 9 closes).histogram = (3 / 10) * (calcMACD 12 26 9 closes).macd) ∧
    (closes.length < 26 → calcMACD 12 26 9 closes = ⟨0, 0, 0⟩) := by
  intro closes
  constructor
  · intro h
    unfold calcMACD
    rw [if_neg (by omega)]
    refine ⟨rfl, by ring, by ring, by ring⟩
  · intro h
    unfold calcMACD
    rw [if_pos h]

/-- C2 witness: the short-history branch at the empty close series and
the signal relation on a 26-element series. -/
theorem claim_C2_witness :
    calcMACD 12 26 9 ([] : List ℚ) = ⟨0, 0, 0⟩ ∧
    (calcMACD 12 26 9 (List.replicate 26 (2 : ℚ))).signal =
      (7 / 10) * (calcMACD 12 26 9 (List.replicate 26 (2 : ℚ))).macd := by
  constructor
  · exact (claim_C2 []).2 (by decide)
  · exact ((claim_C2 _).1 (by simp)).2.1

/-- Entries of the `gains` list are nonnegative. -/
theorem rsiGain_nonneg (c : ℚ) : 0 ≤ rsiGain c := by
  unfold rsiGain
  split_ifs with h
  · linarith
  · exact le_refl 0

/-- Entries of the `losses` list are nonnegative. -/
theorem rsiLoss_nonneg (c : ℚ) : 0 ≤ rsiLoss c := by
  unfold rsiLoss
  split_ifs with h
  · exact le_refl 0
  · exact abs_nonneg c

/-- `avg_gain` is nonnegative. -/
theorem rsiAvgGain_nonneg (period : ℕ) (closes : List ℚ) :
    0 ≤ rsiAvgGain period closes := by
  unfold rsiAvgGain
  apply div_nonneg
  · apply List.sum_nonneg
    intro x hx
    obtain ⟨c, _, rfl⟩ := List.mem_map.mp hx
    exact rsiGain_nonneg c
  · exact Nat.cast_nonneg period

/-- `avg_loss` is nonnegative. -/
theorem rsiAvgLoss_nonneg (period : ℕ) (closes : List ℚ) :
    0 ≤ rsiAvgLoss period closes := by
  unfold rsiAvgLoss
  apply div_nonneg
  · apply List.sum_nonneg
    intro x hx
    obtain ⟨c, _, rfl⟩ := List.mem_map.mp hx
    exact rsiLoss_nonneg c
  · exact Nat.cast_nonneg period

/-- C6: for every close history and period ≥ 1, RSI is within [0, 100];
it is exactly 50 when fewer than `period+1` closes exist and exactly 100
when the average loss over the last `period` close-to-close changes is
zero. -/
theorem claim_C6 : ∀ (closes : List ℚ) (period : ℕ), 1 ≤ period →
    (0 ≤ calcRSI period closes ∧ calcRSI period closes ≤ 100) ∧
    (closes.length < period + 1 → calcRSI period closes = 50) ∧
    (period + 1 ≤ closes.length → rsiAvgLoss period closes = 0 →
      calcRSI period closes = 100) := by
  intro closes period hp
  refine ⟨?_, ?_, ?_⟩
  · unfold calcRSI
    split_ifs with h1 h2
    · norm_num
    · norm_num
    · have hg : 0 ≤ rsiAvgGain period closes := rsiAvgGain_nonneg period closes
      have hl0 : 0 ≤ rsiAvgLoss period closes := rsiAvgLoss_nonneg period closes
      have hl : 0 < rsiAvgLoss period closes := lt_of_le_of_ne hl0 (Ne.symm h2)
      have hrs : 0 ≤ rsiAvgGain period closes / rsiAvgLoss period closes :=
        div_nonneg hg hl0
      have h1p : 0 < 1 + rsiAvgGain period closes / rsiAvgLoss period closes := by
        linarith
      have hdp : 0 < 100 / (1 + rsiAvgGain period closes / rsiAvgLoss period closes) :=
        div_pos (by norm_num) h1p
      have hdl : 100 / (1 + rsiAvgGain period closes / rsiAvgLoss period closes) ≤ 100 := by
        rw [div_le_iff₀ h1p]
        nlinarith
      constructor <;> linarith
  · intro h
    unfold calcRSI
    rw [if_pos h]
  · intro h hz
    unfold calcRSI
    rw [if_neg (by omega), if_pos hz]

/-- C6 witness: neutral 50 on an empty history, 100 on a strictly rising
history, and the bounds at a mixed history. -/
theorem claim_C6_witness :
    calcRSI 14 ([] : List ℚ) = 50 ∧ calcRSI 2 [1, 2, 3] = 100 ∧
    0 ≤ calcRSI 2 [3, 1, 2] ∧ calcRSI 2 [3, 1, 2] ≤ 100 := by
  refine ⟨?_, ?_, ?_, ?_⟩
  · exact (claim_C6 [] 14 (by norm_num)).2.1 (by decide)
  · exact (claim_C6 [1, 2, 3] 2 (by norm_num)).2.2 (by decide)
      (by norm_num [rsiAvgLoss, takeLastQ, diffs, rsiLoss])
  · exact (claim_C6 [3, 1, 2] 2 (by norm_num)).1.1
  · exact (claim_C6 [3, 1, 2] 2 (by norm_num)).1.2

/-- `candles[-2]`/`candles[-1]` of a history ending in `a, b`. -/
theorem last2_append (l : List ℚ) (a b : ℚ) : last2 (l ++ [a, b]) = some (a, b) := by
  unfold last2
  simp [List.reverse_append]

/-- Fewer than two candles: no last-two pair. -/
theorem last2_short (l : List ℚ) (h : l.length < 2) : last2 l = none := by
  match l, h with
  | [], _ => rfl
  | [x], _ => rfl

/-- C7: `check_price_cross` detects exactly a strict crossing of the
level between the previous and the latest close (in the given
direction), returns false with fewer than two candles, and on the
concrete histories of the spec behaves as claimed.  The `price`
argument of the source function is ignored. -/
theorem claim_C7 : ∀ (l : List ℚ) (a b level price : ℚ) (d : String),
    (checkPriceCross (l ++ [a, b]) price level "UPWARDS" =
      (decide (a ≤ level) && decide (level < b))) ∧
    (checkPriceCross (l ++ [a, b]) price level "DOWNWARDS" =
      (decide (level ≤ a) && decide (b < level))) ∧
    (∀ m : List ℚ, m.length < 2 → checkPriceCross m price level d = false) ∧
    (checkPriceCross [90, 110] price 100 "UPWARDS" = true) ∧
    (checkPriceCross [110, 90] price 100 "DOWNWARDS" = true) ∧
    (checkPriceCross [110, 120] price 100 "UPWARDS" = false ∧
      checkPriceCross [110, 120] price 100 "DOWNWARDS" = false) := by
  intro l a b level price d
  refine ⟨?_, ?_, ?_, ?_, ?_, ?_, ?_⟩
  · unfold checkPriceCross
    rw [last2_append]
    dsimp only
    rw [if_pos (by decide)]
  · unfold checkPriceCross
    rw [last2_append]
    dsimp only
    rw [if_neg (by decide), if_pos (by decide)]
  · intro m hm
    unfold checkPriceCross
    rw [last2_short m hm]
  · unfold checkPriceCross
    rw [show last2 [90, 110] = some (90, 110) from rfl]
    dsimp only
    rw [if_pos (by decide)]
    decide
  · unfold checkPriceCross
    rw [show last2 [110, 90] = some (110, 90) from rfl]
    dsimp only
    rw [if_neg (by decide), if_pos (by decide)]
    decide
  · unfold checkPriceCross
    rw [show last2 [110, 120] = some (110, 120) from rfl]
    dsimp only
    rw [if_pos (by decide)]
    decide
  · unfold checkPriceCross
    rw [show last2 [110, 120] = some (110, 120) from rfl]
    dsimp only
    rw [if_neg (by decide), if_pos (by decide)]
    decide

/-- C7 witness: the general crossing characterization instantiated on
the spec's concrete histories. -/
theorem claim_C7_witness :
    checkPriceCross [90, 110] 0 100 "UPWARDS" = true ∧
    checkPriceCross ([] : List ℚ) 0 100 "UPWARDS" = false := by
  constructor
  · exact ((claim_C7 [] 90 110 100 0 "UPWARDS").1).trans (by decide)
  · exact (claim_C7 [] 0 0 100 0 "UPWARDS").2.2.1 [] (by decide)

/-! ## Executor helper lemmas -/

/-- A rejected or invalid BUY only logs. -/
theorem execBuy_reject (s : TState) (price : ℚ) (params : Params) (q d : ℚ)
    (h1 : buyPlan price params s = some (q, d)) (h2 : d > s.balance) :
    execBuy price params s = { s with logs := s.logs + 1 } := by
  unfold execBuy
  rw [h1]
  dsimp only
  rw [if_pos h2]

/-- An invalid-parameter BUY only logs. -/
theorem execBuy_invalid (s : TState) (price : ℚ) (params : Params)
    (h1 : buyPlan price params s = none) :
    execBuy price params s = { s with logs := s.logs + 1 } := by
  unfold execBuy
  rw [h1]

/-- A successful BUY: position grows by the quantity, entry price is the
execution price, the cost leaves the balance, one FILLED order appends. -/
theorem execBuy_success (s : TState) (price : ℚ) (params : Params) (q d : ℚ)
    (h1 : buyPlan price params s = some (q, d)) (h2 : ¬ d > s.balance) :
    execBuy price params s =
      { s with position_size := s.position_size + q,
               entry_price := some price,
               balance := s.balance - d,
               orders := s.orders ++ [⟨"BUY", orderTypeOf params, q, price, "FILLED"⟩],
               logs := s.logs + 4 } := by
  unfold execBuy
  rw [h1]
  dsimp only
  rw [if_neg h2]

/-- One BUY keeps a nonnegative balance nonnegative. -/
theorem execBuy_balance_nonneg (price : ℚ) (params : Params) (s : TState)
    (h : 0 ≤ s.balance) : 0 ≤ (execBuy price params s).balance := by
  unfold execBuy
  cases hb : buyPlan price params s with
  | none => simpa using h
  | some qd =>
    obtain ⟨q, d⟩ := qd
    dsimp only
    split_ifs with hd
    · simpa using h
    · push_neg at hd
      dsimp only
      linarith

/-- Any sequence of BUYs keeps a nonnegative balance nonnegative. -/
theorem buySeq_balance_nonneg (steps : List (ℚ × Params)) : ∀ s : TState,
    0 ≤ s.balance →
    0 ≤ (steps.foldl (fun st pp => execBuy pp.1 pp.2 st) s).balance := by
  induction steps with
  | nil => intro s h; exact h
  | cons x xs ih =>
    intro s h
    exact ih _ (execBuy_balance_nonneg x.1 x.2 s h)

/-! ## Claim C3 -/

/-- C3: over all BUY sequences from a state with nonnegative balance
the balance stays nonnegative; a BUY whose dollar cost exceeds the
balance (or with invalid parameters) changes nothing but the log; a
successful BUY adds the quantity to the position, sets the entry price
to the execution price, subtracts the cost and appends one FILLED
order. -/
theorem claim_C3 :
    (∀ (s0 : TState) (steps : List (ℚ × Params)), 0 ≤ s0.balance →
      0 ≤ (steps.foldl (fun st pp => execBuy pp.1 pp.2 st) s0).balance) ∧
    (∀ (s : TState) (price : ℚ) (params : Params) (q d : ℚ),
      buyPlan price params s = some (q, d) → d > s.balance →
      execBuy price params s = { s with logs := s.logs + 1 }) ∧
    (∀ (s : TState) (price : ℚ) (params : Params),
      buyPlan price params s = none →
      execBuy price params s = { s with logs := s.logs + 1 }) ∧
    (∀ (s : TState) (price : ℚ) (params : Params) (q d : ℚ),
      buyPlan price params s = some (q, d) → ¬ d > s.balance →
      execBuy price params s =
        { s with position_size := s.position_size + q,
                 entry_price := some price,
                 balance := s.balance - d,
                 orders := s.orders ++ [⟨"BUY", orderTypeOf params, q, price, "FILLED"⟩],
                 logs := s.logs + 4 }) := by
  refine ⟨?_, ?_, ?_, ?_⟩
  · intro s0 steps h
    exact buySeq_balance_nonneg steps s0 h
  · intro s price params q d h1 h2
    exact execBuy_reject s price params q d h1 h2
  · intro s price params h1
    exact execBuy_invalid s price params h1
  · intro s price params q d h1 h2
    exact execBuy_success s price params q d h1 h2

/-- C3 witness: one affordable BUY from a fresh state keeps the balance
nonnegative, and an unaffordable BUY (cost 20000 over balance 10000) is
a logged no-op. -/
theorem claim_C3_witness :
    0 ≤ (([((100 : ℚ), [("amount", PVal.q 10)])].foldl
      (fun st pp => execBuy pp.1 pp.2 st) (initState 10000))).balance ∧
    execBuy 100 [("amount", PVal.q 200)] (initState 10000) =
      { initState 10000 with logs := (initState 10000).logs + 1 } := by
  constructor
  · exact claim_C3.1 (initState 10000) _ (by norm_num [initState])
  · refine claim_C3.2.1 (initState 10000) 100 [("amount", PVal.q 200)] 200 20000 ?_ ?_
    · simp [buyPlan, initState, List.lookup]
      norm_num
    · norm_num [initState]

/-! ## Claim C1 -/

/-- BUY preserves "entry price set whenever a position is open". -/
theorem execBuy_inv (price : ℚ) (params : Params) (s : TState)
    (h : 0 < s.position_size → s.entry_price.isSome = true) :
    0 < (execBuy price params s).position_size →
      (execBuy price params s).entry_price.isSome = true := by
  unfold execBuy
  cases hb : buyPlan price params s with
  | none => dsimp only; exact h
  | some qd =>
    obtain ⟨q, d⟩ := qd
    dsimp only
    split_ifs with hd
    · dsimp only; exact h
    · intro _; rfl

/-- SELL preserves "entry price set whenever a position is open". -/
theorem execSell_inv (price : ℚ) (params : Params) (s : TState)
    (h : 0 < s.position_size → s.entry_price.isSome = true) :
    0 < (execSell price params s).position_size →
      (execSell price params s).entry_price.isSome = true := by
  unfold execSell
  split_ifs with h0
  · dsimp only; exact h
  · cases hq : sellQuantity params s with
    | none => dsimp only; exact h
    | some q =>
      dsimp only
      intro hp
      have hgt : ¬ (s.position_size - q ≤ 0) := not_le.mpr hp
      rw [if_neg hgt]
      exact h (not_le.mp h0)

/-- SET changes neither entry price nor position size. -/
theorem execSet_frame (params : Params) (s : TState) :
    (execSet params s).entry_price = s.entry_price ∧
    (execSet params s).position_size = s.position_size := by
  unfold execSet
  repeat' split
  all_goals exact ⟨rfl, rfl⟩

/-- The protective check preserves "entry set whenever position open". -/
theorem checkSLTP_inv (price : ℚ) (s : TState)
    (h : 0 < s.position_size → s.entry_price.isSome = true) :
    0 < ((checkSLTP price s).1).position_size →
      ((checkSLTP price s).1).entry_price.isSome = true := by
  unfold checkSLTP
  split_ifs with h0 h1 h2
  · exact execSell_inv price fullSellParams { s with logs := s.logs + 1 } h
  · exact execSell_inv price fullSellParams { s with logs := s.logs + 1 } h
  · exact h
  · exact h

/-- Every reachable state has its entry price set whenever a position
is open. -/
theorem reachable_entry_inv (b : ℚ) (s : TState) (hr : Reachable b s) :
    0 < s.position_size → s.entry_price.isSome = true := by
  unfold Reachable at hr
  induction hr with
  | refl => intro h; norm_num [initState] at h
  | tail hsteps hstep ih =>
    cases hstep with
    | buy price params s hp => exact execBuy_inv price params _ ih
    | sell price params s hp => exact execSell_inv price params _ ih
    | set params s =>
      intro hpos
      rw [(execSet_frame params _).1]
      exact ih ((execSet_frame params _).2 ▸ hpos)
    | logMsg s => exact ih
    | check price s hp => exact checkSLTP_inv price _ ih

/-- A SELL from an open position clears the protective fields exactly
when it empties the position and keeps them otherwise. -/
theorem execSell_clearing (price : ℚ) (params : Params) (s : TState)
    (hpos : 0 < s.position_size) :
    ((execSell price params s).position_size ≤ 0 →
      (execSell price params s).entry_price = none ∧
      (execSell price params s).stop_loss = none ∧
      (execSell price params s).take_profit = none) ∧
    (0 < (execSell price params s).position_size →
      (execSell price params s).entry_price = s.entry_price ∧
      (execSell price params s).stop_loss = s.stop_loss ∧
      (execSell price params s).take_profit = s.take_profit) := by
  unfold execSell
  rw [if_neg (not_le.mpr hpos)]
  cases hq : sellQuantity params s with
  | none =>
    dsimp only
    constructor
    · intro h
      exact absurd h (not_le.mpr hpos)
    · intro _
      exact ⟨rfl, rfl, rfl⟩
  | some q =>
    dsimp only
    constructor
    · intro h
      exact ⟨if_pos h, if_pos h, if_pos h⟩
    · intro h
      have hn : ¬ (s.position_size - q ≤ 0) := not_le.mpr h
      exact ⟨if_neg hn, if_neg hn, if_neg hn⟩

/-- BUY never touches the protective levels. -/
theorem execBuy_protective (price : ℚ) (params : Params) (s : TState) :
    (execBuy price params s).stop_loss = s.stop_loss ∧
    (execBuy price params s).take_profit = s.take_profit := by
  unfold execBuy
  cases hb : buyPlan price params s with
  | none => exact ⟨rfl, rfl⟩
  | some qd =>
    obtain ⟨q, d⟩ := qd
    dsimp only
    split_ifs with hd
    · exact ⟨rfl, rfl⟩
    · exact ⟨rfl, rfl⟩

/-- C1, corrected.  The claimed iff fails (see the counterexample): a
zero-quantity BUY sets `entry_price` while `position_size` stays 0.
What holds on every reachable state is the forward direction —
`position_size > 0` implies `entry_price` set — together with the
clearing discipline: a SELL from an open position clears `entry_price`,
`stop_loss`, `take_profit` together exactly when it brings
`position_size` to ≤ 0 and preserves all three otherwise, while BUY
never clears the protective levels and SET changes neither entry price
nor position. -/
theorem claim_C1_amended :
    (∀ (b : ℚ) (s : TState), Reachable b s →
      0 < s.position_size → s.entry_price.isSome = true) ∧
    (∀ (s : TState) (price : ℚ) (params : Params), 0 < s.position_size →
      ((execSell price params s).position_size ≤ 0 →
        (execSell price params s).entry_price = none ∧
        (execSell price params s).stop_loss = none ∧
        (execSell price params s).take_profit = none) ∧
      (0 < (execSell price params s).position_size →
        (execSell price params s).entry_price = s.entry_price ∧
        (execSell price params s).stop_loss = s.stop_loss ∧
        (execSell price params s).take_profit = s.take_profit)) ∧
    (∀ (s : TState) (price : ℚ) (params : Params),
      (execBuy price params s).stop_loss = s.stop_loss ∧
      (execBuy price params s).take_profit = s.take_profit) ∧
    (∀ (s : TState) (params : Params),
      (execSet params s).entry_price = s.entry_price ∧
      (execSet params s).position_size = s.position_size) := by
  refine ⟨?_, ?_, ?_, ?_⟩
  · exact reachable_entry_inv
  · intro s price params hpos
    exact execSell_clearing price params s hpos
  · intro s price params
    exact execBuy_protective price params s
  · intro s params
    exact execSet_frame params s

/-- C1 counterexample: the state after `BUY 0` (amount 0) from a fresh
state is reachable, has `entry_price = some 100` yet
`position_size = 0`, refuting the claimed "entry_price set iff
position_size > 0" invariant. -/
theorem claim_C1_counterexample :
    Reachable 10000 c1bad ∧ c1bad.entry_price = some 100 ∧
    c1bad.position_size = 0 := by
  have hb : buyPlan 100 [("amount", PVal.q 0)] (initState 10000) = some (0, 0) := by
    simp [buyPlan, initState, List.lookup]
  have he := execBuy_success (initState 10000) 100 [("amount", PVal.q 0)] 0 0 hb
    (by norm_num [initState])
  refine ⟨Relation.ReflTransGen.single
    (Step.buy 100 [("amount", PVal.q 0)] (initState 10000) (by norm_num)), ?_, ?_⟩
  · rw [show c1bad = execBuy 100 [("amount", PVal.q 0)] (initState 10000) from rfl, he]
  · rw [show c1bad = execBuy 100 [("amount", PVal.q 0)] (initState 10000) from rfl, he]
    norm_num [initState]

/-- C1 witness: a reachable one-unit position has its entry price set,
and a full SELL from an open position clears the entry price. -/
theorem claim_C1_witness :
    (execBuy 100 [("amount", PVal.q 1)] (initState 10000)).entry_price.isSome = true ∧
    (execSell 100 [] c1wstate).entry_price = none := by
  have hb : buyPlan 100 [("amount", PVal.q 1)] (initState 10000) = some (1, 100) := by
    simp [buyPlan, initState, List.lookup]
  have he := execBuy_success (initState 10000) 100 [("amount", PVal.q 1)] 1 100 hb
    (by norm_num [initState])
  constructor
  · exact claim_C1_amended.1 10000 _
      (Relation.ReflTransGen.single
        (Step.buy 100 [("amount", PVal.q 1)] (initState 10000) (by norm_num)))
      (by rw [he]; norm_num [initState])
  · have hq : sellQuantity [] c1wstate = some 1 := by
      simp [sellQuantity, c1wstate, List.lookup]
    have hle : (execSell 100 [] c1wstate).position_size ≤ 0 := by
      unfold execSell
      rw [if_neg (by norm_num [c1wstate]), hq]
      norm_num [c1wstate]
    exact ((claim_C1_amended.2.1 c1wstate 100 [] (by norm_num [c1wstate])).1 hle).1

/-! ## Claim C4 -/

/-- The forced full-position SELL of `check_stop_loss_take_profit`
(100% of the position at market): empties the position, clears all
protective fields, credits the proceeds and appends one FILLED order. -/
theorem sellFullProps (price : ℚ) (s : TState) (hpos : 0 < s.position_size) :
    (execSell price fullSellParams { s with logs := s.logs + 1 }).position_size = 0 ∧
    (execSell price fullSellParams { s with logs := s.logs + 1 }).entry_price = none ∧
    (execSell price fullSellParams { s with logs := s.logs + 1 }).stop_loss = none ∧
    (execSell price fullSellParams { s with logs := s.logs + 1 }).take_profit = none ∧
    (execSell price fullSellParams { s with logs := s.logs + 1 }).balance =
      s.balance + s.position_size * price ∧
    (execSell price fullSellParams { s with logs := s.logs + 1 }).orders =
      s.orders ++ [⟨"SELL", "MARKET_ORDER", s.position_size, price, "FILLED"⟩] := by
  have h100 : (100 : ℚ) / 100 = 1 := by norm_num
  have hq : sellQuantity fullSellParams { s with logs := s.logs + 1 } =
      some (s.position_size * (100 / 100)) := by
    simp [sellQuantity, fullSellParams, List.lookup]
  have hot : orderTypeOf fullSellParams = "MARKET_ORDER" := by
    simp [orderTypeOf, fullSellParams, List.lookup]
  unfold execSell
  rw [if_neg (not_le.mpr hpos), hq]
  dsimp only
  rw [h100, mul_one, sub_self]
  refine ⟨rfl, if_pos le_rfl, if_pos le_rfl, if_pos le_rfl, rfl, ?_⟩
  rw [hot]

/-- C4, corrected.  With an open position at most one trigger fires per
call, stop-loss checked first; but Python truthiness means a trigger
additionally requires the armed level to be nonzero: stop-loss fires
when `stop_loss` is set, nonzero and `price ≤ stop_loss`; otherwise
take-profit fires when `take_profit` is set, nonzero and
`price ≥ take_profit` (a level equal to 0.0 is treated as unset — see
the counterexample).  A trigger performs a full-position SELL leaving
`position_size = 0` with `entry_price`, `stop_loss`, `take_profit`
cleared, credits the proceeds, appends one FILLED order, and the
trigger name is returned. -/
theorem claim_C4_amended : ∀ (s : TState) (price : ℚ), 0 < s.position_size →
    ((checkSLTP price s).2.length ≤ 1) ∧
    (slHit price s = true ↔ ∃ sl, s.stop_loss = some sl ∧ sl ≠ 0 ∧ price ≤ sl) ∧
    (tpHit price s = true ↔ ∃ tp, s.take_profit = some tp ∧ tp ≠ 0 ∧ price ≥ tp) ∧
    (slHit price s = true →
      (checkSLTP price s).2 = ["STOP_LOSS"] ∧
      (checkSLTP price s).1.position_size = 0 ∧
      (checkSLTP price s).1.entry_price = none ∧
      (checkSLTP price s).1.stop_loss = none ∧
      (checkSLTP price s).1.take_profit = none ∧
      (checkSLTP price s).1.balance = s.balance + s.position_size * price ∧
      (checkSLTP price s).1.orders =
        s.orders ++ [⟨"SELL", "MARKET_ORDER", s.position_size, price, "FILLED"⟩]) ∧
    (slHit price s = false → tpHit price s = true →
      (checkSLTP price s).2 = ["TAKE_PROFIT"] ∧
      (checkSLTP price s).1.position_size = 0 ∧
      (checkSLTP price s).1.entry_price = none ∧
      (checkSLTP price s).1.stop_loss = none ∧
      (checkSLTP price s).1.take_profit = none ∧
      (checkSLTP price s).1.balance = s.balance + s.position_size * price ∧
      (checkSLTP price s).1.orders =
        s.orders ++ [⟨"SELL", "MARKET_ORDER", s.position_size, price, "FILLED"⟩]) ∧
    (slHit price s = false → tpHit price s = false →
      checkSLTP price s = (s, [])) := by
  intro s price hpos
  refine ⟨?_, ?_, ?_, ?_, ?_, ?_⟩
  · unfold checkSLTP
    split_ifs <;> simp
  · unfold slHit
    cases s.stop_loss with
    | none => simp
    | some sl => simp [decide_eq_true_eq]
  · unfold tpHit
    cases s.take_profit with
    | none => simp
    | some tp => simp [decide_eq_true_eq]
  · intro hsl
    have hc : checkSLTP price s =
        (execSell price fullSellParams { s with logs := s.logs + 1 }, ["STOP_LOSS"]) := by
      simp [checkSLTP, hpos, hsl]
    rw [hc]
    have h := sellFullProps price s hpos
    exact ⟨rfl, h.1, h.2.1, h.2.2.1, h.2.2.2.1, h.2.2.2.2.1, h.2.2.2.2.2⟩
  · intro hsl htp
    have hc : checkSLTP price s =
        (execSell price fullSellParams { s with logs := s.logs + 1 }, ["TAKE_PROFIT"]) := by
      simp [checkSLTP, hpos, hsl, htp]
    rw [hc]
    have h := sellFullProps price s hpos
    exact ⟨rfl, h.1, h.2.1, h.2.2.1, h.2.2.2.1, h.2.2.2.2.1, h.2.2.2.2.2⟩
  · intro hsl htp
    simp [checkSLTP, hpos, hsl, htp]

/-- C4 counterexample: from a fresh state, `BUY 1` at price 100 then
`SET TAKE_PROFIT AT 100% BELOW ENTRY_PRICE` reaches a state with an
open position and `take_profit = some 0`.  At price 50 the claimed
condition "current price ≥ take_profit" holds (50 ≥ 0), yet the check
triggers nothing and leaves the state unchanged: a zero level is falsy
in Python. -/
theorem claim_C4_counterexample :
    Reachable 10000 c4reach ∧ 0 < c4reach.position_size ∧
    c4reach.take_profit = some 0 ∧ ((50 : ℚ) ≥ 0) ∧
    (checkSLTP 50 c4reach).2 = [] ∧ (checkSLTP 50 c4reach).1 = c4reach := by
  have hb : buyPlan 100 [("amount", PVal.q 1)] (initState 10000) = some (1, 100) := by
    simp [buyPlan, initState, List.lookup]
  have he := execBuy_success (initState 10000) 100 [("amount", PVal.q 1)] 1 100 hb
    (by norm_num [initState])
  have hpos : 0 < c4reach.position_size := by
    rw [show c4reach = execSet
        [("target", PVal.s "TAKE_PROFIT"), ("percentage", PVal.q 100),
         ("direction", PVal.s "BELOW"), ("base", PVal.s "ENTRY_PRICE")]
        (execBuy 100 [("amount", PVal.q 1)] (initState 10000)) from rfl]
    rw [(execSet_frame _ _).2, he]
    norm_num [initState]
  have htp : c4reach.take_profit = some 0 := by
    rw [show c4reach = execSet
        [("target", PVal.s "TAKE_PROFIT"), ("percentage", PVal.q 100),
         ("direction", PVal.s "BELOW"), ("base", PVal.s "ENTRY_PRICE")]
        (execBuy 100 [("amount", PVal.q 1)] (initState 10000)) from rfl, he]
    simp [execSet, setTakeProfitVal, getPctD, getStrD, entryTruthy, List.lookup]
  have hsl : c4reach.stop_loss = none := by
    rw [show c4reach = execSet
        [("target", PVal.s "TAKE_PROFIT"), ("percentage", PVal.q 100),
         ("direction", PVal.s "BELOW"), ("base", PVal.s "ENTRY_PRICE")]
        (execBuy 100 [("amount", PVal.q 1)] (initState 10000)) from rfl, he]
    simp [execSet, setTakeProfitVal, getPctD, getStrD, entryTruthy, List.lookup, initState]
  have hslhit : slHit 50 c4reach = false := by
    simp [slHit, hsl]
  have htphit : tpHit 50 c4reach = false := by
    simp [tpHit, htp]
  have hc : checkSLTP 50 c4reach = (c4reach, []) := by
    simp [checkSLTP, hpos, hslhit, htphit]
  refine ⟨?_, hpos, htp, by norm_num, by rw [hc], by rw [hc]⟩
  exact Relation.ReflTransGen.tail
    (Relation.ReflTransGen.single
      (Step.buy 100 [("amount", PVal.q 1)] (initState 10000) (by norm_num)))
    (Step.set _ _)

/-- C4 witness: with position 1, entry 100 and stop-loss 90 armed, a
price of 80 triggers exactly one STOP_LOSS, empties and clears the
position state. -/
theorem claim_C4_witness :
    (checkSLTP 80 c4wstate).2 = ["STOP_LOSS"] ∧
    (checkSLTP 80 c4wstate).1.position_size = 0 ∧
    (checkSLTP 80 c4wstate).1.stop_loss = none ∧
    (checkSLTP 80 c4wstate).2.length ≤ 1 := by
  have h := claim_C4_amended c4wstate 80 (by norm_num [c4wstate])
  have hsl : slHit 80 c4wstate = true := by decide
  exact ⟨(h.2.2.2.1 hsl).1, (h.2.2.2.1 hsl).2.1, (h.2.2.2.1 hsl).2.2.2.1, h.1⟩

/-! ## Claims C8 and C10 -/

/-- Operand resolution ignores the log counter. -/
theorem resolveValue_logs (m : Market) (s : TState) (n : ℕ) (v : CondVal) :
    resolveValue m { s with logs := n } v = resolveValue m s v := by
  cases v <;> rfl

/-- Condition evaluation ignores the log counter. -/
theorem condEval_logs (m : Market) (s : TState) (n : ℕ) (c : Condition) :
    condEval m { s with logs := n } c = condEval m s c := by
  unfold condEval
  simp only [resolveValue_logs]

/-- Condition evaluation ignores the `logical_op` field. -/
theorem condEval_logical (m : Market) (s : TState) (a : CondVal) (op : String)
    (r : CondVal) (g1 g2 : Option String) :
    condEval m s ⟨a, op, r, g1⟩ = condEval m s ⟨a, op, r, g2⟩ := rfl

/-- C8: a handler's actions run exactly when every one of its
conditions evaluates to true (conjunctively); with any condition false
the handler only logs; an empty condition list always runs the actions;
and rewriting every condition's `logical_op` (e.g. to OR) changes
nothing. -/
theorem claim_C8 : ∀ (m : Market) (h : EventHandler) (s : TState),
    ((h.conditions.all fun c => condEval m s c) = true →
      execHandler m h s =
        (h.actions.foldl (execActionS m) { s with logs := s.logs + 1 }, h.actions)) ∧
    ((h.conditions.all fun c => condEval m s c) = false →
      execHandler m h s = ({ s with logs := s.logs + 1 + 1 }, [])) ∧
    (h.conditions = [] →
      execHandler m h s =
        (h.actions.foldl (execActionS m) { s with logs := s.logs + 1 }, h.actions)) ∧
    (∀ g : Option String,
      execHandler m
          { h with conditions := h.conditions.map fun c => { c with logical_op := g } } s
        = execHandler m h s) := by
  intro m h s
  have hall : (h.conditions.all fun c => condEval m { s with logs := s.logs + 1 } c)
      = (h.conditions.all fun c => condEval m s c) := by
    simp only [condEval_logs]
  have hmap : ∀ (g : Option String) (l : List Condition) (st : TState),
      ((l.map fun c => { c with logical_op := g }).all fun c => condEval m st c)
        = (l.all fun c => condEval m st c) := by
    intro g l st
    induction l with
    | nil => rfl
    | cons c cs ih =>
      cases c with
      | mk a op r g1 =>
        simp only [List.map_cons, List.all_cons, ih]
        rfl
  refine ⟨?_, ?_, ?_, ?_⟩
  · intro ht
    simp [execHandler, hall, ht]
  · intro hf
    have hne : h.conditions ≠ [] := by
      intro he
      rw [he] at hf
      simp at hf
    simp [execHandler, hall, hf, hne]
  · intro he
    simp [execHandler, he]
  · intro g
    have hie : (h.conditions.map fun c => { c with logical_op := g }).isEmpty
        = h.conditions.isEmpty := by
      cases h.conditions <;> rfl
    simp only [execHandler]
    rw [hmap, hie]

/-- C8 witness: a condition-free handler with one LOG action executes
exactly its action list. -/
theorem claim_C8_witness :
    execHandler ⟨[], 0⟩ ⟨"NEW_CANDLE", [], [⟨"LOG", []⟩]⟩ (initState 10000) =
      ({ initState 10000 with logs := 3 }, [⟨"LOG", []⟩]) := by
  have h := (claim_C8 ⟨[], 0⟩ ⟨"NEW_CANDLE", [], [⟨"LOG", []⟩]⟩ (initState 10000)).2.2.1 rfl
  exact h.trans (by decide)

/-- C10: an event matching no handler yields a successful result and
changes nothing in the trading state except growing the logs. -/
theorem claim_C10 : ∀ (m : Market) (ast : AlgoScriptAST) (ev : String) (s : TState),
    ast.event_handlers.filter (fun h => h.event_type == ev) = [] →
    (executeEvent m ast ev s).1.success = true ∧
    (executeEvent m ast ev s).2.position_size = s.position_size ∧
    (executeEvent m ast ev s).2.entry_price = s.entry_price ∧
    (executeEvent m ast ev s).2.stop_loss = s.stop_loss ∧
    (executeEvent m ast ev s).2.take_profit = s.take_profit ∧
    (executeEvent m ast ev s).2.balance = s.balance ∧
    (executeEvent m ast ev s).2.orders = s.orders ∧
    (executeEvent m ast ev s).2.vars = s.vars ∧
    s.logs ≤ (executeEvent m ast ev s).2.logs := by
  intro m ast ev s hf
  unfold executeEvent
  rw [hf]
  dsimp only
  refine ⟨rfl, rfl, rfl, rfl, rfl, rfl, rfl, rfl, ?_⟩
  split_ifs <;> omega

/-- C10 witness: a PRICE_CHANGE event against an AST with only a
NEW_CANDLE handler succeeds and leaves the fresh balance intact. -/
theorem claim_C10_witness :
    (executeEvent ⟨[], 0⟩ astC10 "PRICE_CHANGE" (initState 10000)).1.success = true ∧
    (executeEvent ⟨[], 0⟩ astC10 "PRICE_CHANGE" (initState 10000)).2.balance = 10000 := by
  have h := claim_C10 ⟨[], 0⟩ astC10 "PRICE_CHANGE" (initState 10000) (by decide)
  exact ⟨h.1, h.2.2.2.2.2.1.trans rfl⟩

end AlgoScript
